import Mathlib

/-!
Verification development for the MapleSniffer decryption core.

The C++ sources are shallowly embedded as executable Lean definitions:

* bytes are `Nat` values; `uint8`, `uint16`, `uint32` arithmetic is made
  explicit with `% 256`, `% 65536`, `% 4294967296`;
* fallible parsers return `Option`;
* stateful objects (the cipher stream, the TCP reassembler) are records,
  and mutating member functions become state-passing functions;
* the two external crypto primitives the code calls through OpenSSL
  (AES-256-ECB single-block encryption, used only to produce an XOR
  keystream, and 3DES-EDE-ECB decryption) are passed in as an explicit
  oracle parameter `CryptoOracle`, so every theorem quantifies over all
  possible behaviours of the library calls while the whole program logic
  around them is embedded byte for byte.

Field `timestamp` (a C++ double used only to stamp emitted packets) and
the derived display string `hexDump` are omitted from the packet record;
no property below depends on them.
-/

namespace maple

/-- Unsigned 8-bit addition, `(uint8_t)(a + b)`. -/
def add8 (a b : Nat) : Nat := (a + b) % 256

/-- Unsigned 8-bit subtraction, `(uint8_t)(a - b)`. -/
def sub8 (a b : Nat) : Nat := (a + 256 - b % 256) % 256

/-- Read a byte of a buffer; out-of-range reads give 0.  The `% 256`
models `uint8_t` storage. -/
def byteAt (l : List Nat) (i : Nat) : Nat := l.getD i 0 % 256

/-- Little-endian `uint16` at offset `i`: `buf[i] | (buf[i+1] << 8)`. -/
def u16le (l : List Nat) (i : Nat) : Nat := byteAt l i + byteAt l (i + 1) * 256

/-- Little-endian `uint32` at offset `i`. -/
def u32le (l : List Nat) (i : Nat) : Nat :=
  byteAt l i + byteAt l (i + 1) * 256 + byteAt l (i + 2) * 65536 +
    byteAt l (i + 3) * 16777216

/-- Little-endian `int32_t` at offset `i` (two-complement reading). -/
def i32le (l : List Nat) (i : Nat) : Int :=
  let n := u32le l i
  if n < 2147483648 then (n : Int) else (n : Int) - 4294967296

/-- The fixed 256-byte shuffle permutation `MapleAES::shuffleKey_`. -/
def shuffleKey : List Nat :=
  [0xEC, 0x3F, 0x77, 0xA4, 0x45, 0xD0, 0x71, 0xBF, 0xB7, 0x98, 0x20, 0xFC, 0x4B, 0xE9, 0xB3, 0xE1,
   0x5C, 0x22, 0xF7, 0x0C, 0x44, 0x1B, 0x81, 0xBD, 0x63, 0x8D, 0xD4, 0xC3, 0xF2, 0x10, 0x19, 0xE0,
   0xFB, 0xA1, 0x6E, 0x66, 0xEA, 0xAE, 0xD6, 0xCE, 0x06, 0x18, 0x4E, 0xEB, 0x78, 0x95, 0xDB, 0xBA,
   0xB6, 0x42, 0x7A, 0x2A, 0x83, 0x0B, 0x54, 0x67, 0x6D, 0xE8, 0x65, 0xE7, 0x2F, 0x07, 0xF3, 0xAA,
   0x27, 0x7B, 0x85, 0xB0, 0x26, 0xFD, 0x8B, 0xA9, 0xFA, 0xBE, 0xA8, 0xD7, 0xCB, 0xCC, 0x92, 0xDA,
   0xF9, 0x93, 0x60, 0x2D, 0xDD, 0xD2, 0xA2, 0x9B, 0x39, 0x5F, 0x82, 0x21, 0x4C, 0x69, 0xF8, 0x31,
   0x87, 0xEE, 0x8E, 0xAD, 0x8C, 0x6A, 0xBC, 0xB5, 0x6B, 0x59, 0x13, 0xF1, 0x04, 0x00, 0xF6, 0x5A,
   0x35, 0x79, 0x48, 0x8F, 0x15, 0xCD, 0x97, 0x57, 0x12, 0x3E, 0x37, 0xFF, 0x9D, 0x4F, 0x51, 0xF5,
   0xA3, 0x70, 0xBB, 0x14, 0x75, 0xC2, 0xB8, 0x72, 0xC0, 0xED, 0x7D, 0x68, 0xC9, 0x2E, 0x0D, 0x62,
   0x46, 0x17, 0x11, 0x4D, 0x6C, 0xC4, 0x7E, 0x53, 0xC1, 0x25, 0xC7, 0x9A, 0x1C, 0x88, 0x58, 0x2C,
   0x89, 0xDC, 0x02, 0x64, 0x40, 0x01, 0x5D, 0x38, 0xA5, 0xE2, 0xAF, 0x55, 0xD5, 0xEF, 0x1A, 0x7C,
   0xA7, 0x5B, 0xA6, 0x6F, 0x86, 0x9F, 0x73, 0xE6, 0x0A, 0xDE, 0x2B, 0x99, 0x4A, 0x47, 0x9C, 0xDF,
   0x09, 0x76, 0x9E, 0x30, 0x0E, 0xE4, 0xB2, 0x94, 0xA0, 0x3B, 0x34, 0x1D, 0x28, 0x0F, 0x36, 0xE3,
   0x23, 0xB4, 0x03, 0xD8, 0x90, 0xC8, 0x3C, 0xFE, 0x5E, 0x32, 0x24, 0x50, 0x1F, 0x3A, 0x43, 0x8A,
   0x96, 0x41, 0x74, 0xAC, 0x52, 0x33, 0xF0, 0xD9, 0x29, 0x80, 0xB1, 0x16, 0xD3, 0xAB, 0x91, 0xB9,
   0x84, 0x7F, 0x61, 0x1E, 0xCF, 0xC5, 0xD1, 0x56, 0x3D, 0xCA, 0xF4, 0x05, 0xC6, 0xE5, 0x08, 0x49]

/-- Lookup in the shuffle table with a `uint8` index. -/
def shuf (v : Nat) : Nat := shuffleKey.getD (v % 256) 0

/-- A 4-byte IV held by value, as in `uint8_t iv_[4]`. -/
structure IV4 where
  b0 : Nat
  b1 : Nat
  b2 : Nat
  b3 : Nat
  deriving DecidableEq, Repr

/-- `MapleAES::morph`: one step of the IV update schedule followed by a
32-bit rotate-left by 3 of the little-endian concatenation.  The four
assignments are sequential, so the fourth line reads the already-updated
first byte. -/
def MapleAES.morph (value : Nat) (iv : IV4) : IV4 :=
  let input := value % 256
  let tableInput := shuf input
  let a0 := add8 iv.b0 (sub8 (shuf iv.b1) input)
  let a1 := sub8 iv.b1 ((iv.b2 ^^^ tableInput) % 256)
  let a2 := (iv.b2 ^^^ add8 (shuf iv.b3) input) % 256
  let a3 := sub8 iv.b3 (sub8 a0 tableInput)
  let val := a0 + a1 * 256 + a2 * 65536 + a3 * 16777216
  let r := (val * 8) % 4294967296 ||| val / 536870912
  ⟨r % 256, r / 256 % 256, r / 65536 % 256, r / 16777216 % 256⟩

/-- `MapleAES::shiftIV`: the per-packet IV replacement.  A fresh working
IV is seeded with `F2 53 50 C6` and morphed once with each byte of the
old IV, in order; the result becomes the new stream IV. -/
def MapleAES.shiftIV (iv : IV4) : IV4 :=
  let n0 : IV4 := ⟨0xF2, 0x53, 0x50, 0xC6⟩
  let n1 := MapleAES.morph iv.b0 n0
  let n2 := MapleAES.morph iv.b1 n1
  let n3 := MapleAES.morph iv.b2 n2
  MapleAES.morph iv.b3 n3

/-- One step of the IV schedule exactly as the specification words it:
in unsigned 8-bit arithmetic, `iv0 += shuffle[iv1] - v`,
`iv1 -= iv2 XOR shuffle[v]`, `iv2 ^= shuffle[iv3] + v`,
`iv3 -= iv0 - shuffle[v]` (sequentially), then the little-endian 32-bit
concatenation is rotated left by 3 bits. -/
def morphStepSpec (iv : IV4) (v : Nat) : IV4 :=
  let s0 := (iv.b0 + (shuf iv.b1 + 256 - v % 256) % 256) % 256
  let s1 := (iv.b1 + 256 - ((iv.b2 ^^^ shuf v) % 256)) % 256
  let s2 := (iv.b2 ^^^ (shuf iv.b3 + v % 256) % 256) % 256
  let s3 := (iv.b3 + 256 - ((s0 + 256 - shuf v % 256) % 256)) % 256
  let w := s0 + s1 * 256 + s2 * 65536 + s3 * 16777216
  let rot := (w * 8) % 4294967296 ||| w / 536870912
  ⟨rot % 256, rot / 256 % 256, rot / 65536 % 256, rot / 16777216 % 256⟩

/-- The whole per-packet IV update as the specification words it: start
from the seed `F2 53 50 C6` and apply one schedule step per byte of the
old IV, in order. -/
def morphScheduleSpec (old : IV4) : IV4 :=
  [old.b0, old.b1, old.b2, old.b3].foldl morphStepSpec ⟨0xF2, 0x53, 0x50, 0xC6⟩

theorem shiftIV_eq_schedule (iv : IV4) :
    MapleAES.shiftIV iv = morphScheduleSpec iv := by
  have hmm : ∀ a : Nat, a % 256 % 256 = a % 256 := fun a => Nat.mod_mod_of_dvd a dvd_rfl
  have hstep : ∀ v w, MapleAES.morph v w = morphStepSpec w v := by
    intro v w
    simp only [MapleAES.morph, morphStepSpec, add8, sub8, shuf, hmm]
  simp only [MapleAES.shiftIV, morphScheduleSpec, List.foldl, hstep]

/-- The two crypto primitives the decoder obtains from OpenSSL.
`aesEncBlock key block` stands for one `EVP_EncryptUpdate` of a 16-byte
block under AES-256-ECB with `key`; `des3Decrypt buf` stands for
3DES-EDE-ECB decryption (padding off) of a whole buffer under the fixed
expanded key.  Theorems quantify over the oracle, so they hold for every
behaviour of the library. -/
structure CryptoOracle where
  aesEncBlock : List Nat → List Nat → List Nat
  des3Decrypt : List Nat → List Nat

/-- The `DecryptedPacket` record of `maple_stream.h` (without the
`timestamp` double and the derived `hexDump` display string, see the
header comment of this file). -/
structure DecryptedPacket where
  outbound : Bool
  opcode : Nat
  payload : List Nat
  length : Nat
  isHandshake : Bool
  isDeadNotification : Bool
  version : Nat
  subVersionStr : List Nat
  locale : Nat
  deriving DecidableEq, Repr

/-- `MapleAES::confirmHeader`: the first two buffered bytes, XORed with
IV bytes 2 and 3, must equal the low and high byte of the stored
version. -/
def MapleAES.confirmHeader (version : Nat) (iv : IV4) (buf : List Nat) : Bool :=
  ((byteAt buf 0 ^^^ iv.b2 % 256) == version % 256) &&
    ((byteAt buf 1 ^^^ iv.b3 % 256) == version / 256 % 256)

/-- `MapleAES::getHeaderLength` (with the default `oldHeader = false`):
8 bytes when the header-decoded length is the big-packet marker
`0xFF00`, otherwise 4. -/
def MapleAES.getHeaderLength (buf : List Nat) : Nat :=
  let ivBytes := u16le buf 0
  let xorredSize := u16le buf 2
  let length := (xorredSize ^^^ ivBytes) % 65536
  if length == 0xFF00 then 8 else 4

/-- `MapleAES::getPacketLength` (with the default `oldHeader = false`).
A negative result means more bytes are needed. -/
def MapleAES.getPacketLength (buf : List Nat) (bytesAvailable : Int) : Int :=
  if bytesAvailable < 4 then bytesAvailable - 4
  else
    let ivBytes := u16le buf 0
    let xorredSize := u16le buf 2
    let length := (xorredSize ^^^ ivBytes) % 65536
    if length == 0xFF00 then
      if bytesAvailable < 8 then bytesAvailable - 8
      else Int.ofNat ((u32le buf 4 ^^^ ivBytes) &&& 0x7FFFFFFF)
    else Int.ofNat length

/-- Chain `count` AES-ECB encryptions starting from `block`, returning
the concatenated blocks: `xorTable[0] = E(ivBlock)`,
`xorTable[i+1] = E(xorTable[i])`. -/
def aesChain (crypto : CryptoOracle) (key : List Nat) (block : List Nat) :
    Nat → List Nat
  | 0 => []
  | n + 1 =>
    let b := crypto.aesEncBlock key block
    b ++ aesChain crypto key b n

/-- XOR a list against a keystream table, restarting the table index at
each chunk exactly as the C++ loop resets `xorIdx` per chunk. -/
def chunkXorAux (table : List Nat) : Nat → List Nat → Nat → List Nat
  | 0, rest, _ => rest
  | fuel + 1, rest, size =>
    if rest.isEmpty then []
    else
      (List.zipWith (fun a b => (a ^^^ b) % 256) (rest.take size) table) ++
        chunkXorAux table fuel (rest.drop size) 1460

/-- `MapleAES::transformAES`: build the 16-byte IV block by repeating
the 4-byte IV, generate a chained AES-ECB XOR table of
`min(size/16 + 1, 92)` blocks, and XOR the data against it in chunks of
1456 bytes (1452 for big packets), 1460 thereafter. -/
def MapleAES.transformAES (crypto : CryptoOracle) (key : List Nat) (iv : IV4)
    (data : List Nat) : List Nat :=
  let ivBlock := [iv.b0, iv.b1, iv.b2, iv.b3, iv.b0, iv.b1, iv.b2, iv.b3,
                  iv.b0, iv.b1, iv.b2, iv.b3, iv.b0, iv.b1, iv.b2, iv.b3]
  let requiredBlocks := min (data.length / 16 + 1) 92
  let xorTable := aesChain crypto key ivBlock requiredBlocks
  let startOffset := if data.length ≥ 0xFF00 then 1452 else 1456
  chunkXorAux xorTable (data.length + 1) data (min startOffset data.length)

/-- Byte values that `std::isspace` accepts in the default locale. -/
def isSpaceByte (c : Nat) : Bool := c == 32 || (9 ≤ c && c ≤ 13)

/-- `std::stoi` on a token held as bytes: skip leading whitespace, read
an optional sign and at least one decimal digit, fail (exception in the
C++ code) when there is no digit or the value overflows `int`. -/
def stoiOpt (tok : List Nat) : Option Int :=
  let t := tok.dropWhile isSpaceByte
  let signed : Int × List Nat :=
    match t with
    | 45 :: r => (-1, r)
    | 43 :: r => (1, r)
    | r => (1, r)
  let digits := signed.2.takeWhile (fun c => 48 ≤ c && c ≤ 57)
  if digits.isEmpty then none
  else
    let v : Nat := digits.foldl (fun a c => a * 10 + (c - 48)) 0
    let r : Int := signed.1 * (v : Int)
    if r < -2147483648 ∨ 2147483647 < r then none else some r

/-- `std::getline(iss, token, ...)` splitting on a delimiter byte: every
delimiter ends a token, and a trailing delimiter does not produce an
extra empty token (getline fails at end of stream). -/
def getlineSplit (delim : Nat) : List Nat → List Nat → List (List Nat)
  | [], acc => [acc.reverse]
  | c :: rest, acc =>
    if c == delim then
      acc.reverse :: (if rest.isEmpty then [] else getlineSplit delim rest [])
    else getlineSplit delim rest (c :: acc)

/-- The token loop of `MapleStream::parseOpcodeEncryption`: walk the
tokens in order, stopping at the first empty token, the first token
`std::stoi` rejects, and the first duplicate key; each accepted token
maps its decimal value to `(uint16_t)(index + 0xCC)`. -/
def parseTokensAux : List (List Nat) → Nat → List (Int × Nat) → List (Int × Nat)
  | [], _, acc => acc
  | tok :: rest, idx, acc =>
    if tok.isEmpty then acc
    else
      match stoiOpt tok with
      | none => acc
      | some v =>
        if (acc.lookup v).isSome then acc
        else parseTokensAux rest (idx + 1) (acc ++ [(v, (idx + 0xCC) % 65536)])

/-- `MapleStream::parseOpcodeEncryption`: 3DES-ECB-decrypt
`min(bufferSize, dataLen)` bytes (the `EVP` calls produce
`floor(decryptLen / 8) * 8` plaintext bytes because padding is disabled
and a trailing partial block makes `DecryptFinal` fail, which the code
ignores), then parse the plaintext as a pipe-separated decimal list. -/
def MapleStream.parseOpcodeEncryption (crypto : CryptoOracle) (data : List Nat)
    (dataLen bufferSize : Int) : List (Int × Nat) :=
  let decryptLen := (min bufferSize dataLen).toNat
  let plain := crypto.des3Decrypt (data.take decryptLen)
  let totalLen := decryptLen / 8 * 8
  let tokens :=
    match (plain.take totalLen).map (· % 256) with
    | [] => []
    | l => getlineSplit 124 l []
  parseTokensAux tokens 0 []

/-- The decoder state of one `MapleStream` (one direction of a session).
The C++ buffer/cursor pair is modelled by keeping exactly the filled
prefix, so the cursor is `buffer.length`.  `version` is the value the
constructor stored (`build` outbound, `0xFFFF - build` inbound). -/
structure MapleStream where
  outbound : Bool
  version : Nat
  iv : IV4
  aesKey : List Nat
  useNewDataShift : Bool
  buffer : List Nat
  expectedDataSize : Int
  opcodeEncrypted : Bool
  encryptedOpcodes : List (Int × Nat)
  deriving DecidableEq, Repr

/-- `MapleStream::append`: no-op on an empty chunk, otherwise the bytes
are appended to the internal buffer and the cursor advances. -/
def MapleStream.append (s : MapleStream) (data : List Nat) : MapleStream :=
  if data.length == 0 then s else { s with buffer := s.buffer ++ data }

/-- The decryption step of `MapleStream::tryRead` on the extracted
packet buffer `buffer[headerLength .. headerLength + packetSize]`:
IV-subtract for the data-shift transform, chained AES-ECB XOR
otherwise. -/
def MapleStream.decodePayload (crypto : CryptoOracle) (s2 : MapleStream)
    (headerLength : Nat) (packetSize : Int) : List Nat :=
  let packetBuffer := (s2.buffer.drop headerLength).take packetSize.toNat
  if s2.useNewDataShift then packetBuffer.map (fun b => sub8 (b % 256) s2.iv.b0)
  else MapleAES.transformAES crypto s2.aesKey s2.iv packetBuffer

/-- The `pkt.payload` assignment of `MapleStream::tryRead`: everything
after the 2-byte opcode, empty when the packet has no bytes beyond it. -/
def MapleStream.payloadAfterOpcode (crypto : CryptoOracle) (s2 : MapleStream)
    (headerLength : Nat) (packetSize : Int) : List Nat :=
  if 2 < packetSize.toNat then
    (MapleStream.decodePayload crypto s2 headerLength packetSize).drop 2
  else []

/-- The raw little-endian opcode of the decoded packet (0 when fewer
than two bytes were decoded). -/
def MapleStream.rawOpcode (crypto : CryptoOracle) (s2 : MapleStream)
    (headerLength : Nat) (packetSize : Int) : Nat :=
  if 2 ≤ packetSize.toNat then
    u16le (MapleStream.decodePayload crypto s2 headerLength packetSize) 0
  else 0

/-- The emitting tail of `MapleStream::tryRead`, once the header is
validated and `headerLength + packetSize` bytes are buffered: decrypt,
morph the IV, consume the bytes, build the packet, self-install the
opcode map on an inbound `0x46` packet and remap the opcode of outbound
packets when a map is installed. -/
def MapleStream.emitPacket (crypto : CryptoOracle) (s2 : MapleStream)
    (headerLength : Nat) (packetSize : Int) :
    Option DecryptedPacket × MapleStream :=
  let opcode := MapleStream.rawOpcode crypto s2 headerLength packetSize
  let payload := MapleStream.payloadAfterOpcode crypto s2 headerLength packetSize
  let installed :=
    if !s2.outbound && opcode == 0x46 && 4 ≤ payload.length then
      let bufferSize := i32le payload 0
      if 0 < bufferSize && 4 + bufferSize ≤ (payload.length : Int) then
        (true, MapleStream.parseOpcodeEncryption crypto (payload.drop 4)
          ((payload.length : Int) - 4) bufferSize)
      else (s2.opcodeEncrypted, s2.encryptedOpcodes)
    else (s2.opcodeEncrypted, s2.encryptedOpcodes)
  let finalOpcode :=
    if installed.1 && s2.outbound then
      match installed.2.lookup (opcode : Int) with
      | some real => real
      | none => opcode
    else opcode
  let pkt : DecryptedPacket :=
    { outbound := s2.outbound, opcode := finalOpcode, payload := payload,
      length := payload.length, isHandshake := false,
      isDeadNotification := false, version := 0, subVersionStr := [],
      locale := 0 }
  (some pkt,
    { s2 with buffer := s2.buffer.drop (headerLength + packetSize.toNat),
              expectedDataSize := 4, iv := MapleAES.shiftIV s2.iv,
              opcodeEncrypted := installed.1, encryptedOpcodes := installed.2 })

/-- `MapleStream::tryRead`: one attempt to decode a packet from the
front of the buffer, following `maple_stream.cpp` line by line — guard
on `expectedDataSize`, validate the header against the IV, derive header
and payload length (updating the expected size at each short read), then
emit via `MapleStream.emitPacket`. -/
def MapleStream.tryRead (crypto : CryptoOracle) (s : MapleStream) :
    Option DecryptedPacket × MapleStream :=
  if (s.buffer.length : Int) < s.expectedDataSize then (none, s)
  else if !MapleAES.confirmHeader s.version s.iv s.buffer then (none, s)
  else
    let headerLength := MapleAES.getHeaderLength s.buffer
    let s1 := { s with expectedDataSize := (headerLength : Int) }
    if s1.buffer.length < headerLength then (none, s1)
    else
      let packetSize := MapleAES.getPacketLength s1.buffer (s1.buffer.length : Int)
      let s2 := { s1 with expectedDataSize := packetSize + (headerLength : Int) }
      if (s2.buffer.length : Int) < s2.expectedDataSize then (none, s2)
      else MapleStream.emitPacket crypto s2 headerLength packetSize

/-- `hexCharToNibble` of `maple_aes.cpp` (unknown characters give 0). -/
def hexCharToNibble (c : Nat) : Nat :=
  if 48 ≤ c ∧ c ≤ 57 then c - 48
  else if 65 ≤ c ∧ c ≤ 70 then c - 65 + 10
  else if 97 ≤ c ∧ c ≤ 102 then c - 97 + 10
  else 0

/-- `hexByteParse`: two hex characters to one byte. -/
def hexByteParse (c1 c2 : Nat) : Nat := hexCharToNibble c1 * 16 + hexCharToNibble c2

/-- The 20 fixed 64-hex-character secrets `MapleAES::secretKeys_`. -/
def secretKeys : List String :=
  ["2923BE84E16CD6AE529049F1F1BBE9EBB3A6DB3C870C3E99245E0D1C06B747DE",
   "B3124DC843BB8BA61F035A7D0938251F5DD4CBFC96F5453B130D890A1CDBAE32",
   "888138616B681262F954D0E7711748780D92291D86299972DB741CFA4F37B8B5",
   "209A50EE407836FD124932F69E7D49DCAD4F14F2444066D06BC430B7323BA122",
   "F622919DE18B1FDAB0CA9902B9729D492C807EC599D5E980B2EAC9CC53BF67D6",
   "BF14D67E2DDC8E6683EF574961FF698F61CDD11E9D9C167272E61DF0844F4A77",
   "02D7E8392C53CBC9121E33749E0CF4D5D49FD4A4597E35CF3222F4CCCFD3902D",
   "48D38F75E6D91D2AE5C0F72B788187440E5F5000D4618DBE7B0515073B33821F",
   "187092DA6454CEB1853E6915F8466A0496730ED9162F6768D4F74A4AD0576876",
   "5B628A8A8F275CF7E5874A3B329B614084C6C3B1A7304A10EE756F032F9E6AEF",
   "762DD0C2C9CD68D4496A792508614014B13B6AA51128C18CD6A90B87978C2FF1",
   "10509BC8814329288AF6E99E47A18148316CCDA49EDE81A38C9810FF9A43CDCF",
   "5E4EE1309CFED9719FE2A5E20C9BB44765382A4689A982797A7678C263B126DF",
   "DA296D3E62E0961234BF39A63F895EF16D0EE36C28A11E201DCBC2033F410784",
   "0F1405651B2861C9C5E72C8E463608DCF3A88DFEBEF2EB71FFA0D03B75068C7E",
   "8778734DD0BE82BEDBC246412B8CFA307F70F0A754863295AA5B68130BE6FCF5",
   "CABE7D9F898A411BFDB84F68F6727B1499CDD30DF0443AB4A66653330BCBA110",
   "5E4CEC034C73E605B4310EAAADCFD5B0CA27FFD89D144DF4792759427C9CC1F8",
   "CD8C87202364B8A687954CB05A8D4E2D99E73DB160DEB180AD0841E96741A5D5",
   "9FE4189F15420026FE4CD12104932FB38F735340438AAF7ECA6FD5CFD3A195CE"]

/-- `MapleAES::defaultSecretKey_`: four little-endian 32-bit words
`0x13 0x08 0x06 0xB4 0x1B 0x0F 0x33 0x52` spread over 32 bytes. -/
def defaultSecretKey : List Nat :=
  [0x13, 0, 0, 0, 0x08, 0, 0, 0, 0x06, 0, 0, 0, 0xB4, 0, 0, 0,
   0x1B, 0, 0, 0, 0x0F, 0, 0, 0, 0x33, 0, 0, 0, 0x52, 0, 0, 0]

/-- `MapleAES::generateTWKey`: pick the secret string at `version % 20`,
hex-decode it to 32 bytes, read every fourth byte as an 8-byte seed and
spread the seed over key offsets `i * 4`, all other key bytes zero. -/
def MapleAES.generateTWKey (version : Nat) : List Nat :=
  let keyIndex := version % 20
  let hexStr := ((secretKeys.getD keyIndex "").data.map Char.toNat)
  let keyBuffer := (List.range 32).map
    (fun i => hexByteParse (hexStr.getD (2 * i) 0) (hexStr.getD (2 * i + 1) 0))
  let seed := (List.range 8).map (fun i => keyBuffer.getD (4 * i) 0)
  (List.range 32).map (fun j => if j % 4 == 0 then seed.getD (j / 4) 0 else 0)

/-- The key selection of the `MapleAES` constructor: the stored version
(a `uint16_t`) is corrected with `0xFFFF - v` when negative as
`int16_t`, then locale 6 derives the TW key and every other locale uses
the fixed default key. -/
def MapleAES.deriveKey (version locale : Nat) : List Nat :=
  let v := version % 65536
  let keyVersion := if 32768 ≤ v then 0xFFFF - v else v
  if locale == 6 then MapleAES.generateTWKey keyVersion else defaultSecretKey

/-- The `MapleStream` constructor: outbound streams store `build`,
inbound streams store `0xFFFF - build`; the data-shift transform is
selected for inbound streams of extra-cipher sessions; buffer empty,
cursor 0, `expectedDataSize = 4`. -/
def mkMapleStream (outbound : Bool) (build locale : Nat) (iv : IV4)
    (extraCipher : Bool) : MapleStream :=
  let aesVersion := if outbound then build % 65536 else 0xFFFF - build % 65536
  { outbound := outbound, version := aesVersion, iv := iv,
    aesKey := MapleAES.deriveKey aesVersion locale,
    useNewDataShift := extraCipher && !outbound,
    buffer := [], expectedDataSize := 4,
    opcodeEncrypted := false, encryptedOpcodes := [] }

/-- Signed 32-bit comparison `int32_t(a - b) <= 0` on `uint32` values:
the wrapped difference is zero or has its sign bit set. -/
def sle32 (a b : Nat) : Bool :=
  let d := (a + 4294967296 - b % 4294967296) % 4294967296
  d == 0 || 2147483648 ≤ d

/-- The per-direction TCP reassembler `TcpReasm` of `tcp_reasm.h`.  The
`std::map` keyed by `uint32_t` is modelled as an association list kept
sorted in ascending key order. -/
structure TcpReasm where
  nextSeq : Nat
  initialized : Bool
  staged : List (Nat × List Nat)
  deriving DecidableEq, Repr

/-- `TcpReasm::init`. -/
def TcpReasm.init (r : TcpReasm) (seq : Nat) : TcpReasm :=
  { r with nextSeq := seq % 4294967296, initialized := true }

/-- Ordered insertion into the staged map; an existing entry with the
same key is replaced in place (the `std::map` `operator[]` plus `assign`
path). -/
def stagedInsert (k : Nat) (v : List Nat) :
    List (Nat × List Nat) → List (Nat × List Nat)
  | [] => [(k, v)]
  | e :: r =>
    if k < e.1 then (k, v) :: e :: r
    else if k == e.1 then (k, v) :: r
    else e :: stagedInsert k v r

/-- `TcpReasm::addSegment`: ignore empty segments, initialise `nextSeq`
on the first segment, and stage the bytes unless an entry at the same
seq is already at least as long (the longer segment wins). -/
def TcpReasm.addSegment (r : TcpReasm) (seq : Nat) (data : List Nat) : TcpReasm :=
  if data.length == 0 then r
  else
    let sq := seq % 4294967296
    let r1 := if r.initialized then r
              else { r with initialized := true, nextSeq := sq }
    match r1.staged.lookup sq with
    | none => { r1 with staged := stagedInsert sq data r1.staged }
    | some old =>
      if old.length < data.length then
        { r1 with staged := stagedInsert sq data r1.staged }
      else r1

/-- The scan of `TcpReasm::drain`: walk the staged entries in key order,
erasing entries that end at or before `nextSeq` (signed 32-bit
comparison) and stopping at the first entry whose start is at or before
`nextSeq`.  Returns the map after the erasures together with the
selected entry, if any. -/
def drainScan (nextSeq : Nat) :
    List (Nat × List Nat) → List (Nat × List Nat) × Option (Nat × List Nat)
  | [] => ([], none)
  | e :: rest =>
    let segEnd := (e.1 + e.2.length) % 4294967296
    if sle32 segEnd nextSeq then drainScan nextSeq rest
    else if sle32 e.1 nextSeq then (e :: rest, some e)
    else
      let t := drainScan nextSeq rest
      (e :: t.1, t.2)

/-- Remove the entry with the given key (iterator erase of the selected
segment). -/
def eraseKey (k : Nat) : List (Nat × List Nat) → List (Nat × List Nat)
  | [] => []
  | e :: r => if e.1 == k then r else e :: eraseKey k r

/-- The delivery loop of `TcpReasm::drain`, with explicit fuel (each
delivering pass erases the selected entry, so `staged.length + 1` passes
always suffice). -/
def drainLoop (holdLast : Bool) :
    Nat → Nat → List (Nat × List Nat) → List Nat →
      List Nat × Nat × List (Nat × List Nat)
  | 0, nextSeq, staged, acc => (acc, nextSeq, staged)
  | fuel + 1, nextSeq, staged, acc =>
    match drainScan nextSeq staged with
    | (staged1, none) => (acc, nextSeq, staged1)
    | (staged1, some e) =>
      if holdLast && staged1.length ≤ 1 then (acc, nextSeq, staged1)
      else
        let offset := (nextSeq + 4294967296 - e.1) % 4294967296
        let acc1 := acc ++ e.2.drop offset
        let next1 := (e.1 + e.2.length) % 4294967296
        drainLoop holdLast fuel next1 (eraseKey e.1 staged1) acc1

/-- `TcpReasm::drain`: deliver in-order bytes; with `holdLast` the last
remaining staged segment stays pending for replacement protection.
Returns the delivered bytes and the updated reassembler. -/
def TcpReasm.drain (r : TcpReasm) (holdLast : Bool) : List Nat × TcpReasm :=
  let t := drainLoop holdLast (r.staged.length + 1) r.nextSeq r.staged []
  (t.1, { r with nextSeq := t.2.1, staged := t.2.2 })

/-- The parsed TCP segment record of `protocol.h` (newest revision, with
`seq` and `ack`). -/
structure TcpSegment where
  srcIP : Nat
  dstIP : Nat
  srcPort : Nat
  dstPort : Nat
  seq : Nat
  payload : List Nat
  syn : Bool
  ack : Bool
  fin : Bool
  rst : Bool
  deriving DecidableEq, Repr

/-- `Protocol::parseTcp`: extract the IPv4/TCP fields of an Ethernet-II
frame, or fail silently (the C++ function returns `false`). -/
def Protocol.parseTcp (data : List Nat) : Option TcpSegment :=
  if data.length < 14 then none
  else
    let etherType := byteAt data 12 * 256 + byteAt data 13
    if etherType ≠ 0x0800 then none
    else
      let ip := data.drop 14
      let ipLen := data.length - 14
      if ipLen < 20 then none
      else if byteAt ip 0 / 16 % 16 ≠ 4 then none
      else
        let ipHeaderLen := byteAt ip 0 % 16 * 4
        if ipLen < ipHeaderLen then none
        else if byteAt ip 9 ≠ 6 then none
        else
          let srcIP := byteAt ip 12 * 16777216 + byteAt ip 13 * 65536 +
            byteAt ip 14 * 256 + byteAt ip 15
          let dstIP := byteAt ip 16 * 16777216 + byteAt ip 17 * 65536 +
            byteAt ip 18 * 256 + byteAt ip 19
          let tcp := ip.drop ipHeaderLen
          let tcpLen := ipLen - ipHeaderLen
          if tcpLen < 20 then none
          else
            let tcpHeaderLen := byteAt tcp 12 / 16 % 16 * 4
            if tcpLen < tcpHeaderLen then none
            else
              let flags := byteAt tcp 13
              some { srcIP := srcIP, dstIP := dstIP,
                     srcPort := byteAt tcp 0 * 256 + byteAt tcp 1,
                     dstPort := byteAt tcp 2 * 256 + byteAt tcp 3,
                     seq := byteAt tcp 4 * 16777216 + byteAt tcp 5 * 65536 +
                       byteAt tcp 6 * 256 + byteAt tcp 7,
                     payload := tcp.drop tcpHeaderLen,
                     syn := flags &&& 0x02 ≠ 0, ack := flags &&& 0x10 ≠ 0,
                     fin := flags &&& 0x01 ≠ 0, rst := flags &&& 0x04 ≠ 0 }

/-- The acceptance condition of the frame parser as the code actually
checks it: frame at least 14 bytes, EtherType IPv4, at least 20 bytes of
IP data, IP version 4, the IHL-derived header within the IP data,
protocol TCP, at least 20 bytes from the start of the TCP header, and
the offset-derived TCP header within those bytes.  There is no lower
bound on `IHL * 4` or on `offset * 4` themselves. -/
def parseTcpAccepts (data : List Nat) : Bool :=
  let ip := data.drop 14
  let ipLen := data.length - 14
  let ipHeaderLen := byteAt ip 0 % 16 * 4
  let tcp := ip.drop ipHeaderLen
  let tcpLen := ipLen - ipHeaderLen
  let tcpHeaderLen := byteAt tcp 12 / 16 % 16 * 4
  14 ≤ data.length && byteAt data 12 * 256 + byteAt data 13 == 0x0800 &&
    20 ≤ ipLen && byteAt ip 0 / 16 % 16 == 4 && ipHeaderLen ≤ ipLen &&
    byteAt ip 9 == 6 && 20 ≤ tcpLen && tcpHeaderLen ≤ tcpLen

/-- Result of a successful `Session::tryDetectHandshake`: the fields of
the synthetic handshake `DecryptedPacket` (opcode sentinel `0xFFFF`,
`isHandshake`, `length = 2 + size`) together with the parsed values the
session stores (the IVs seed the two cipher streams). -/
structure HandshakeParse where
  version : Nat
  patchLocation : List Nat
  localIV : List Nat
  remoteIV : List Nat
  locale : Nat
  subVersion : Nat
  extraCipher : Bool
  hsTotal : Nat
  deriving DecidableEq, Repr

/-- The common tail of the handshake detector: reject out-of-range
locales, derive `subVersion` from an all-digit patch string (`std::stoi`
modulo 256, kept at 1 on failure), and set `extraCipher` for locale 6
patch strings without a colon. -/
def handshakeFinish (version : Nat) (patch : List Nat) (localIV remoteIV : List Nat)
    (serverLocale hsTotal : Nat) : Option HandshakeParse :=
  if serverLocale > 0x12 ∨ serverLocale == 0 then none
  else
    let allDigits := !patch.isEmpty && patch.all (fun c => 48 ≤ c && c ≤ 57)
    let subVersion :=
      if allDigits then
        match stoiOpt patch with
        | some v => v.toNat % 256
        | none => 1
      else 1
    let extraCipher := serverLocale == 6 && !patch.contains 58
    some { version := version, patchLocation := patch, localIV := localIV,
           remoteIV := remoteIV, locale := serverLocale,
           subVersion := subVersion, extraCipher := extraCipher,
           hsTotal := hsTotal }

/-- `Session::tryDetectHandshake` on the accumulated pre-handshake
inbound bytes: read the 16-bit length prefix, wait for `2 + size` bytes,
then parse the standard form when `size > 0x10` (version, 16-bit string
length, patch string, two IVs, locale byte) and the legacy short form
otherwise (version, two skipped bytes, a 16-bit patch value rendered in
decimal as `patchVal + 1`, two IVs, locale byte). -/
def Session.tryDetectHandshake (p : List Nat) : Option HandshakeParse :=
  if p.length < 4 then none
  else
    let totalLen := p.length
    let size := byteAt p 0 + byteAt p 1 * 256
    let hsTotal := 2 + size
    if totalLen < hsTotal then none
    else if 0x10 < size then
      if totalLen < 2 + 13 then none
      else
        let version := byteAt p 2 + byteAt p 3 * 256
        let strLen := byteAt p 4 + byteAt p 5 * 256
        if 100 < strLen ∨ totalLen < 6 + strLen + 9 then none
        else
          let patch := (p.drop 6).take strLen
          let localIV := ((p.drop (6 + strLen)).take 4).map (· % 256)
          let remoteIV := ((p.drop (10 + strLen)).take 4).map (· % 256)
          handshakeFinish version patch localIV remoteIV
            (byteAt p (14 + strLen)) hsTotal
    else
      if totalLen < 2 + 16 then none
      else
        let version := byteAt p 2 + byteAt p 3 * 256
        let patchVal := byteAt p 6 + byteAt p 7 * 256
        let patch := (Nat.toDigits 10 (patchVal + 1)).map Char.toNat
        let localIV := ((p.drop 8).take 4).map (· % 256)
        let remoteIV := ((p.drop 12).take 4).map (· % 256)
        handshakeFinish version patch localIV remoteIV (byteAt p 16) hsTotal

/-- Modelled from the spec: the newest revision of the repository gives
`MapleStream` a *Dead* flag that `Session::feedStream` queries through
`isDead()` (see `protocol.h` / the newest `protocol.cpp`), but the
matching `maple_stream.{h,cpp}` revision is not in the tree — the file
present returns `nullopt` on a failed header check without any flag.
Per the specification: on a failed header check the stream becomes
*Dead*, and once dead it emits nothing and silently drops further bytes
until session teardown.  The wrapper adds exactly that flag on top of
the embedded `MapleStream`. -/
structure MapleStreamD where
  core : MapleStream
  dead : Bool
  deriving DecidableEq, Repr

/-- Modelled from the spec: `tryRead` of the dead-aware stream.  A dead
stream never yields a packet; a failed header check (with enough
buffered bytes to check) sets the dead flag; otherwise the embedded
`MapleStream::tryRead` runs unchanged. -/
def MapleStreamD.tryRead (crypto : CryptoOracle) (s : MapleStreamD) :
    Option DecryptedPacket × MapleStreamD :=
  if s.dead then (none, s)
  else if s.core.expectedDataSize ≤ (s.core.buffer.length : Int) &&
      !MapleAES.confirmHeader s.core.version s.core.iv s.core.buffer then
    (none, { s with dead := true })
  else
    let t := s.core.tryRead crypto
    (t.1, { s with core := t.2 })

/-- Modelled from the spec: a dead stream silently drops the bytes
appended to it; a live one appends them as `MapleStream::append` does. -/
def MapleStreamD.append (s : MapleStreamD) (data : List Nat) : MapleStreamD :=
  if s.dead then s else { s with core := s.core.append data }

/-- One direction of a session as `Session::feedStream` sees it: the
cipher stream plus the one-shot `deadNotified_` flag of the session. -/
structure SessionDir where
  stream : MapleStreamD
  deadNotified : Bool
  deriving DecidableEq, Repr

/-- The desync-notice packet `Session::feedStream` builds when a stream
has just died: opcode 0, length 0, `isDeadNotification` set. -/
def deadPacket (outb : Bool) : DecryptedPacket :=
  { outbound := outb, opcode := 0, payload := [], length := 0,
    isHandshake := false, isDeadNotification := true, version := 0,
    subVersionStr := [], locale := 0 }

/-- The `while (true) tryRead` loop of `Session::feedStream`, with
explicit fuel (every decoded packet consumes at least its 4-byte header,
so `buffer.length + 1` rounds always suffice). -/
def drainPackets (crypto : CryptoOracle) :
    Nat → MapleStreamD → List DecryptedPacket →
      List DecryptedPacket × MapleStreamD
  | 0, s, acc => (acc, s)
  | fuel + 1, s, acc =>
    match s.tryRead crypto with
    | (none, s1) => (acc, s1)
    | (some p, s1) => drainPackets crypto fuel s1 (acc ++ [p])

/-- `Session::feedStream` for one direction (`protocol.cpp`, newest
revision): append the drained TCP bytes, read out every decodable
packet, and if the stream is dead and the session has not yet notified,
emit one desync-notice packet and latch `deadNotified_`.  The
cross-stream installation of the opcode map on the session outbound
stream (the inbound `0x46` branch of `feedStream`) concerns the peer
stream and is not part of this single-direction state. -/
def Session.feedStream (crypto : CryptoOracle) (sd : SessionDir)
    (data : List Nat) : List DecryptedPacket × SessionDir :=
  if data.length == 0 then ([], sd)
  else
    let s1 := sd.stream.append data
    let t := drainPackets crypto (s1.core.buffer.length + 1) s1 []
    if t.2.dead && !sd.deadNotified then
      (t.1 ++ [deadPacket t.2.core.outbound],
        { stream := t.2, deadNotified := true })
    else (t.1, { stream := t.2, deadNotified := sd.deadNotified })

/-! Concrete fixtures used by the claim theorems and witnesses. -/

/-- A concrete crypto oracle (identity-like); the data-shift streams
below never consult it. -/
def crypto0 : CryptoOracle := ⟨fun _ _ => List.replicate 16 0, fun l => l⟩

/-- The pre-handshake inbound byte sequence of end-to-end scenario 1 of
the specification. -/
def c2orig : List Nat :=
  [0x0E, 0x00, 0x55, 0x00, 0x07, 0x00, 0x31, 0x32, 0x33, 0x34, 0x35, 0x36,
   0x37, 0x46, 0x72, 0xEE, 0x4D, 0x5C, 0xB6, 0x7D, 0xA3, 0x21, 0x06]

/-- The same handshake content with a length prefix (`0x14 > 0x10`) that
actually selects the standard form, and with the locale byte directly
after the IVs. -/
def c2amend : List Nat :=
  [0x14, 0x00, 0x55, 0x00, 0x07, 0x00, 0x31, 0x32, 0x33, 0x34, 0x35, 0x36,
   0x37, 0x46, 0x72, 0xEE, 0x4D, 0x5C, 0xB6, 0x7D, 0xA3, 0x06]

/-- The synthetic handshake `DecryptedPacket` the detector emits
(opcode sentinel `0xFFFF`, `isHandshake`, `length = 2 + size`; the
`hexDump` carries the raw bytes and is omitted here). -/
def handshakePacket (h : HandshakeParse) : DecryptedPacket :=
  { outbound := false, opcode := 0xFFFF, payload := [], length := h.hsTotal,
    isHandshake := true, isDeadNotification := false, version := h.version,
    subVersionStr := h.patchLocation, locale := h.locale }

/-- An inbound data-shift stream (locale-6 game-server direction) with a
4-byte header announcing a 4-byte payload valid for IV `1 2 3 4` and
version `0xFFFF - 100`, followed by the encrypted payload of the plain
bytes `09 00 AA BB`. -/
def s4 : MapleStream :=
  { mkMapleStream false 100 6 ⟨1, 2, 3, 4⟩ true with
      buffer := [0x98, 0xFB, 0x9C, 0xFB, 0x0A, 0x01, 0xAB, 0xBC] }

/-- An Ethernet-II IPv4/TCP frame whose IPv4 IHL nibble is 0 (header
length 0) and whose TCP header therefore overlaps the IP header; byte 12
of the overlapped TCP header encodes data offset 5. -/
def c5frame : List Nat :=
  List.replicate 12 0 ++ [8, 0] ++
    [0x40, 0, 0, 0, 0, 0, 0, 0, 0, 6, 0, 0, 0x50, 0, 0, 0, 0, 0, 0, 0]

/-- The 16-byte 3DES plaintext of end-to-end scenario 5: the UTF-8 bytes
of the pipe-separated list `5`, `9`, `17`, `33` zero-padded to the block
size. -/
def plain8 : List Nat := [53, 124, 57, 124, 49, 55, 124, 51, 51, 0, 0, 0, 0, 0, 0, 0]

/-- The reassembler of scenario 2: a 1-byte probe at 1000, its 3-byte
replacement, and one more byte at 1003. -/
def r9 : TcpReasm :=
  ((TcpReasm.addSegment ⟨0, false, []⟩ 1000 [65]).addSegment 1000
    [65, 66, 67]).addSegment 1003 [68]

/-! ## Claim C3 -/

/-- C3: a reassembler initialised at `next_seq = 0xFFFFFFF8` holding
4-byte segments at `0xFFFFFFF8`, `0xFFFFFFFC` and `0x00000000` delivers
all 12 bytes in stream order in a single `drain(holdLast = false)` and
ends with `next_seq = 4` — the signed 32-bit comparisons tolerate the
sequence wrap. -/
theorem reasm_wraparound_drain :
    (((((⟨0, false, []⟩ : TcpReasm).init 0xFFFFFFF8).addSegment 0xFFFFFFF8
        [1, 2, 3, 4]).addSegment 0xFFFFFFFC [5, 6, 7, 8]).addSegment 0
        [9, 10, 11, 12]).drain false
      = ([1, 2, 3, 4, 5, 6, 7, 8, 9, 10, 11, 12], ⟨4, true, []⟩) := by decide

/-! ## Claim C9 -/

theorem stagedInsert_lookup_self (k : Nat) (v : List Nat) :
    ∀ l : List (Nat × List Nat), (stagedInsert k v l).lookup k = some v := by
  intro l
  induction l with
  | nil => simp [stagedInsert]
  | cons e r ih =>
    obtain ⟨ek, ev⟩ := e
    by_cases h1 : k < ek
    · simp [stagedInsert, h1, List.lookup]
    · by_cases h2 : k = ek
      · simp [stagedInsert, h1, h2, List.lookup]
      · have hb : (k == ek) = false := beq_eq_false_iff_ne.mpr h2
        simp [stagedInsert, h1, h2, List.lookup, hb, ih]

theorem stagedInsert_lookup_other (k k2 : Nat) (v : List Nat) (hne : k2 ≠ k) :
    ∀ l : List (Nat × List Nat), (stagedInsert k v l).lookup k2 = l.lookup k2 := by
  intro l
  have hb : (k2 == k) = false := beq_eq_false_iff_ne.mpr hne
  induction l with
  | nil => simp [stagedInsert, List.lookup, hb]
  | cons e r ih =>
    obtain ⟨ek, ev⟩ := e
    by_cases h1 : k < ek
    · simp [stagedInsert, h1, List.lookup, hb]
    · by_cases h2 : k = ek
      · subst h2
        simp [stagedInsert, h1, List.lookup, hb]
      · cases hk2 : (k2 == ek) with
        | true => simp [stagedInsert, h1, h2, List.lookup, hk2]
        | false => simp [stagedInsert, h1, h2, List.lookup, hk2, ih]

/-- C9: duplicate or not-longer retransmits at an already-staged seq
leave the reassembler unchanged; a strictly longer segment at the same
seq replaces the staged bytes (other keys and `nextSeq` untouched); and
on the probe/replacement inputs of scenario 2 a single drain with
`holdLast = false` delivers `A B C D` while `holdLast = true` delivers
`A B C` and leaves `D` pending. -/
theorem reasm_replacement_policy :
    (∀ (r : TcpReasm) (seq : Nat) (data old : List Nat),
        r.initialized = true →
        r.staged.lookup (seq % 4294967296) = some old →
        data.length ≤ old.length →
        r.addSegment seq data = r)
    ∧ (∀ (r : TcpReasm) (seq : Nat) (data old : List Nat),
        r.initialized = true → seq < 4294967296 →
        r.staged.lookup seq = some old →
        old.length < data.length →
        (r.addSegment seq data).nextSeq = r.nextSeq ∧
        (r.addSegment seq data).staged.lookup seq = some data ∧
        ∀ k, k ≠ seq →
          (r.addSegment seq data).staged.lookup k = r.staged.lookup k)
    ∧ r9.drain false = ([65, 66, 67, 68], ⟨1004, true, []⟩)
    ∧ r9.drain true = ([65, 66, 67], ⟨1003, true, [(1003, [68])]⟩) := by
  refine ⟨?_, ?_, by decide, by decide⟩
  · intro r seq data old hinit hlook hle
    unfold TcpReasm.addSegment
    split
    · rfl
    · simp only [hinit, if_true, hlook]
      simp [Nat.not_lt.mpr hle]
  · intro r seq data old hinit hlt hlook hlen
    have h0 : ¬ (data.length == 0) = true := by
      simp only [beq_iff_eq]
      omega
    have hsq : seq % 4294967296 = seq := Nat.mod_eq_of_lt hlt
    unfold TcpReasm.addSegment
    simp only [h0, if_false, hsq, hinit, if_true, hlook, hlen, if_true]
    exact ⟨rfl, stagedInsert_lookup_self seq data r.staged,
      fun k hk => stagedInsert_lookup_other seq k data hk r.staged⟩

/-- Instantiation of the two universally quantified parts of
`reasm_replacement_policy` at concrete inputs: a 2-byte retransmit under
the staged 3-byte segment is dropped, and the 3-byte replacement of the
1-byte probe is installed. -/
theorem reasm_replacement_policy_witness :
    TcpReasm.addSegment r9 1000 [65, 66] = r9
    ∧ (TcpReasm.addSegment ⟨1000, true, [(1000, [65])]⟩ 1000
        [65, 66, 67]).staged.lookup 1000 = some [65, 66, 67] := by
  refine ⟨?_, ?_⟩
  · exact reasm_replacement_policy.1 r9 1000 [65, 66] [65, 66, 67] (by decide)
      (by decide) (by decide)
  · exact (reasm_replacement_policy.2.1 ⟨1000, true, [(1000, [65])]⟩ 1000
      [65, 66, 67] [65] rfl (by decide) (by decide) (by decide)).2.1

/-! ## Claim C2 -/

/-- C2, counterexample: on the exact byte sequence of scenario 1 the
detector takes the legacy short-form branch (the prefix `0x000E` is not
greater than `0x10`), reads locale byte `0x4D > 0x12` and rejects the
handshake — no DecodedPacket is produced. -/
theorem handshake_vector_rejected :
    Session.tryDetectHandshake c2orig = none := by decide

/-- C2, amended: with size prefix `0x14` (so the standard form applies)
and the stray byte before the locale removed, the detector produces the
handshake packet with `version = 0x0055`,
`sub_version_string = "1234567"`, `locale = 6`,
`local_iv = 46 72 EE 4D`, `remote_iv = 5C B6 7D A3` and
`length = 2 + size = 22`. -/
theorem handshake_standard_form_decodes :
    Session.tryDetectHandshake c2amend
      = some ⟨0x55, [0x31, 0x32, 0x33, 0x34, 0x35, 0x36, 0x37],
          [0x46, 0x72, 0xEE, 0x4D], [0x5C, 0xB6, 0x7D, 0xA3], 6, 135, true, 22⟩
    ∧ (Session.tryDetectHandshake c2amend).map handshakePacket
      = some { outbound := false, opcode := 0xFFFF, payload := [], length := 22,
               isHandshake := true, isDeadNotification := false, version := 0x55,
               subVersionStr := [0x31, 0x32, 0x33, 0x34, 0x35, 0x36, 0x37],
               locale := 6 } := by
  exact ⟨by decide, by decide⟩

/-! ## Claim C4 -/

/-- C4: the stream decodes a packet whose full decrypted size is 4 bytes
(2 opcode bytes and 2 payload bytes), yet the emitted `length` field is
2 — the code stores `payload.size()` (bytes after the opcode), not the
total decoded size its own header comment and the specification
describe. -/
theorem packet_length_payload_only :
    (s4.tryRead crypto0).1
      = some { outbound := false, opcode := 9, payload := [0xAA, 0xBB],
               length := 2, isHandshake := false, isDeadNotification := false,
               version := 0, subVersionStr := [], locale := 0 }
    ∧ (s4.tryRead crypto0).1.map (fun p => 2 + p.payload.length) = some 4
    ∧ (s4.tryRead crypto0).1.map (fun p => p.length == 2 + p.payload.length)
      = some false := by
  exact ⟨by decide, by decide, by decide⟩

/-! ## Claim C5 -/

/-- C5, counterexample: a frame whose IPv4 IHL nibble is 0 (header
length `0 * 4 = 0 < 20`) is accepted by the parser — it produces a TCP
segment instead of being rejected. -/
theorem parseTcp_accepts_small_ihl :
    (Protocol.parseTcp c5frame).isSome = true
    ∧ byteAt (c5frame.drop 14) 0 % 16 * 4 < 20 := by
  exact ⟨by decide, by decide⟩

/-! ## Claim C7 -/

/-- C7, counterexample: for handshake version `0x8000` and locale 6 the
streams do not use the secret-table entry at `version % 20` — the
constructor first corrects the stored value through `0xFFFF - v`, so
both streams key from entry `0x7FFF % 20 = 7`, not entry
`0x8000 % 20 = 8` as the claim states. -/
theorem tw_key_index_mismatch :
    (mkMapleStream true 0x8000 6 ⟨0, 0, 0, 0⟩ false).aesKey
        ≠ MapleAES.generateTWKey 0x8000
    ∧ (mkMapleStream false 0x8000 6 ⟨0, 0, 0, 0⟩ false).aesKey
        ≠ MapleAES.generateTWKey 0x8000
    ∧ (mkMapleStream true 0x8000 6 ⟨0, 0, 0, 0⟩ false).aesKey
        = (mkMapleStream false 0x8000 6 ⟨0, 0, 0, 0⟩ false).aesKey := by
  exact ⟨by decide, by decide, by decide⟩

/-- C5, amended: the frame parser produces a TCP segment exactly when
the checks the code performs succeed — 14-byte minimum, EtherType
IPv4, 20 bytes of IP data, version nibble 4, `IHL * 4` within the IP
data, protocol 6, 20 bytes from the TCP start, and `offset * 4` within
them; it never requires `IHL * 4 ≥ 20` or `offset * 4 ≥ 20`. -/
theorem parseTcp_accept_characterization (data : List Nat) :
    (Protocol.parseTcp data).isSome = parseTcpAccepts data := by
  simp only [Protocol.parseTcp, parseTcpAccepts]
  repeat' split
  all_goals simp_all [Bool.and_eq_true, decide_eq_true_eq, beq_iff_eq]

/-! ## Claim C6 -/

theorem emitPacket_iv (crypto : CryptoOracle) (s2 : MapleStream)
    (hl : Nat) (ps : Int) :
    (MapleStream.emitPacket crypto s2 hl ps).2.iv = MapleAES.shiftIV s2.iv := rfl

theorem emitPacket_fst_ne (crypto : CryptoOracle) (s2 : MapleStream)
    (hl : Nat) (ps : Int) :
    (MapleStream.emitPacket crypto s2 hl ps).1 ≠ none :=
  fun h => Option.noConfusion h

/-- C6: whenever the framer emits a packet, the new stream IV is a pure
function of the old IV given by the morph schedule exactly as the claim
words it — seed `F2 53 50 C6`, one step per old-IV byte in order, each
step doing the four sequential unsigned 8-bit updates followed by the
32-bit rotate-left by 3 (`morphScheduleSpec`). -/
theorem iv_update_follows_morph_schedule (crypto : CryptoOracle)
    (s : MapleStream) (p : DecryptedPacket) (s2 : MapleStream)
    (h : s.tryRead crypto = (some p, s2)) : s2.iv = morphScheduleSpec s.iv := by
  simp only [MapleStream.tryRead] at h
  repeat' split at h
  all_goals simp_all
  have h2 := congrArg (fun t => t.2.iv) h
  simp only at h2
  rw [← h2, emitPacket_iv]
  exact shiftIV_eq_schedule s.iv

/-- An inbound data-shift stream holding one complete packet, used to
instantiate `iv_update_follows_morph_schedule`. -/
def s6 : MapleStream :=
  { mkMapleStream false 100 6 ⟨9, 10, 11, 12⟩ true with
      buffer := [0x90, 0xF3, 0x94, 0xF3, 0x0A, 0x09, 0x0B, 0x0C] }

/-- The packet `s6` decodes. -/
def pkt6 : DecryptedPacket := ⟨false, 1, [2, 3], 2, false, false, 0, [], 0⟩

/-- Instantiation of `iv_update_follows_morph_schedule` on `s6`. -/
theorem iv_update_follows_morph_schedule_witness :
    s6.tryRead crypto0 = (some pkt6, (s6.tryRead crypto0).2)
    ∧ (s6.tryRead crypto0).2.iv = morphScheduleSpec s6.iv := by
  have h : s6.tryRead crypto0 = (some pkt6, (s6.tryRead crypto0).2) := by decide
  exact ⟨h, iv_update_follows_morph_schedule crypto0 s6 pkt6
    (s6.tryRead crypto0).2 h⟩

/-! ## Claim C10 -/

/-- C10: whenever `tryRead` yields no packet, the post state differs
from the pre state at most in `expectedDataSize` — the buffer (and so
the cursor), the IV, the transform selection, the key and the opcode map
are untouched; and a failed header check (with enough buffered bytes for
the check to run) changes nothing at all, so a retry sees the identical
state. -/
theorem tryRead_none_preserves_state (crypto : CryptoOracle) (s : MapleStream)
    (h : (s.tryRead crypto).1 = none) :
    (s.tryRead crypto).2
        = { s with expectedDataSize := (s.tryRead crypto).2.expectedDataSize }
    ∧ (s.expectedDataSize ≤ (s.buffer.length : Int) →
        MapleAES.confirmHeader s.version s.iv s.buffer = false →
        (s.tryRead crypto).2 = s) := by
  simp only [MapleStream.tryRead] at h ⊢
  repeat' split
  all_goals simp_all [emitPacket_fst_ne]

/-- A stream whose four buffered bytes fail the header check, used to
instantiate `tryRead_none_preserves_state`. -/
def s10 : MapleStream :=
  { mkMapleStream false 0x1234 8 ⟨1, 1, 1, 1⟩ false with buffer := [0, 0, 0, 0] }

/-- Instantiation of `tryRead_none_preserves_state` on `s10`: the failed
header check returns no packet and the state is exactly unchanged. -/
theorem tryRead_none_preserves_state_witness :
    (s10.tryRead crypto0).1 = none ∧ (s10.tryRead crypto0).2 = s10 := by
  have h : (s10.tryRead crypto0).1 = none := by decide
  exact ⟨h, (tryRead_none_preserves_state crypto0 s10 h).2 (by decide) (by decide)⟩

/-- C7, amended: for every handshake version and locale the two streams
of a session hold the same 32-byte AES key; when `locale ≠ 6` it is the
fixed default secret key, and when `locale = 6` it is the table-derived
key for the sign-corrected version `k` (`k = version` when
`version < 0x8000`, else `k = 0xFFFF - version`) — the table index is
`k % 20`, not `version % 20`. -/
theorem stream_keys_agree (build locale : Nat) (iv1 iv2 : IV4) (e1 e2 : Bool) :
    (mkMapleStream true build locale iv1 e1).aesKey
        = (mkMapleStream false build locale iv2 e2).aesKey
    ∧ (locale ≠ 6 →
        (mkMapleStream true build locale iv1 e1).aesKey = defaultSecretKey)
    ∧ (locale = 6 →
        (mkMapleStream true build locale iv1 e1).aesKey
          = MapleAES.generateTWKey
              (if 32768 ≤ build % 65536 then 0xFFFF - build % 65536
               else build % 65536)) := by
  have hded : ∀ v l, MapleAES.deriveKey v l
      = (if l == 6 then
           MapleAES.generateTWKey
             (if 32768 ≤ v % 65536 then 0xFFFF - v % 65536 else v % 65536)
         else defaultSecretKey) := fun v l => rfl
  have hkey1 : (mkMapleStream true build locale iv1 e1).aesKey
      = MapleAES.deriveKey (build % 65536) locale := rfl
  have hkey2 : (mkMapleStream false build locale iv2 e2).aesKey
      = MapleAES.deriveKey (0xFFFF - build % 65536) locale := rfl
  have hmm : (build % 65536) % 65536 = build % 65536 := Nat.mod_mod_of_dvd _ dvd_rfl
  have harith :
      (if 32768 ≤ (build % 65536) % 65536 then 0xFFFF - (build % 65536) % 65536
       else (build % 65536) % 65536)
      = (if 32768 ≤ (0xFFFF - build % 65536) % 65536 then
           0xFFFF - (0xFFFF - build % 65536) % 65536
         else (0xFFFF - build % 65536) % 65536) := by
    split_ifs <;> omega
  refine ⟨?_, ?_, ?_⟩
  · rw [hkey1, hkey2, hded, hded, harith]
  · intro h
    rw [hkey1, hded]
    simp [beq_eq_false_iff_ne.mpr h]
  · intro h
    rw [hkey1, hded]
    simp only [h, beq_self_eq_true, if_true, hmm]

/-- Instantiation of `stream_keys_agree`: a non-6 locale takes the
default key, and locale 6 with version 83 takes the table key for 83. -/
theorem stream_keys_agree_witness :
    (mkMapleStream true 83 8 ⟨0, 0, 0, 0⟩ false).aesKey = defaultSecretKey
    ∧ (mkMapleStream true 83 6 ⟨0, 0, 0, 0⟩ false).aesKey
        = MapleAES.generateTWKey 83 := by
  refine ⟨(stream_keys_agree 83 8 ⟨0, 0, 0, 0⟩ ⟨0, 0, 0, 0⟩ false false).2.1
    (by decide), ?_⟩
  have h := (stream_keys_agree 83 6 ⟨0, 0, 0, 0⟩ ⟨0, 0, 0, 0⟩ false false).2.2 rfl
  simpa using h

/-! ## Claim C8 -/

/-- Whenever `tryRead` emits a packet, it did so through
`MapleStream.emitPacket` with the derived header and payload lengths and
the correspondingly updated `expectedDataSize`. -/
theorem tryRead_some_emit (crypto : CryptoOracle) (s : MapleStream)
    (p : DecryptedPacket) (s1 : MapleStream)
    (h : MapleStream.tryRead crypto s = (some p, s1)) :
    MapleStream.emitPacket crypto
        { s with expectedDataSize :=
            MapleAES.getPacketLength s.buffer (s.buffer.length : Int)
              + (MapleAES.getHeaderLength s.buffer : Int) }
        (MapleAES.getHeaderLength s.buffer)
        (MapleAES.getPacketLength s.buffer (s.buffer.length : Int))
      = (some p, s1) := by
  simp only [MapleStream.tryRead] at h
  repeat' split at h
  all_goals simp_all

/-- On an outbound stream the emitted opcode is the raw decoded opcode,
looked up through the installed opcode map when one is active. -/
theorem emitPacket_opcode_outbound (crypto : CryptoOracle) (s2 : MapleStream)
    (hl : Nat) (ps : Int) (hout : s2.outbound = true) :
    (MapleStream.emitPacket crypto s2 hl ps).1.map (fun p => p.opcode)
      = some (if s2.opcodeEncrypted then
                match s2.encryptedOpcodes.lookup
                    ((MapleStream.rawOpcode crypto s2 hl ps : Nat) : Int) with
                | some real => real
                | none => MapleStream.rawOpcode crypto s2 hl ps
              else MapleStream.rawOpcode crypto s2 hl ps) := by
  simp [MapleStream.emitPacket, hout]

/-- An outbound stream with an installed map containing `9 ↦ 0xCD`
emits, for the packet that would decode with raw opcode 9 without the
map, the mapped opcode `0xCD`. -/
theorem outbound_opcode_remapped (crypto : CryptoOracle) (s : MapleStream)
    (p q : DecryptedPacket) (s1 s2 : MapleStream)
    (hout : s.outbound = true) (henc : s.opcodeEncrypted = true)
    (hlook : s.encryptedOpcodes.lookup 9 = some 0xCD)
    (ht : MapleStream.tryRead crypto
        { s with opcodeEncrypted := false, encryptedOpcodes := [] }
          = (some q, s2))
    (hq : q.opcode = 9)
    (hs : MapleStream.tryRead crypto s = (some p, s1)) :
    p.opcode = 0xCD := by
  have et := tryRead_some_emit crypto _ q s2 ht
  have es := tryRead_some_emit crypto s p s1 hs
  dsimp only at et es
  have ho1 := emitPacket_opcode_outbound crypto
    { s with expectedDataSize := MapleAES.getPacketLength s.buffer (s.buffer.length : Int) + (MapleAES.getHeaderLength s.buffer : Int), opcodeEncrypted := false, encryptedOpcodes := ([] : List (Int × Nat)) }
    (MapleAES.getHeaderLength s.buffer)
    (MapleAES.getPacketLength s.buffer (s.buffer.length : Int)) hout
  have ho2 := emitPacket_opcode_outbound crypto
    { s with expectedDataSize := MapleAES.getPacketLength s.buffer (s.buffer.length : Int) + (MapleAES.getHeaderLength s.buffer : Int) }
    (MapleAES.getHeaderLength s.buffer)
    (MapleAES.getPacketLength s.buffer (s.buffer.length : Int)) hout
  rw [et] at ho1
  rw [es] at ho2
  simp only [Option.map_some] at ho1 ho2
  simp at ho1
  rw [henc] at ho2
  simp at ho2
  have hraw : MapleStream.rawOpcode crypto
      { s with expectedDataSize := MapleAES.getPacketLength s.buffer (s.buffer.length : Int) + (MapleAES.getHeaderLength s.buffer : Int), opcodeEncrypted := true }
      (MapleAES.getHeaderLength s.buffer)
      (MapleAES.getPacketLength s.buffer (s.buffer.length : Int))
      = MapleStream.rawOpcode crypto
      { s with expectedDataSize := MapleAES.getPacketLength s.buffer (s.buffer.length : Int) + (MapleAES.getHeaderLength s.buffer : Int), opcodeEncrypted := false, encryptedOpcodes := ([] : List (Int × Nat)) }
      (MapleAES.getHeaderLength s.buffer)
      (MapleAES.getPacketLength s.buffer (s.buffer.length : Int)) := rfl
  rw [hraw, ← ho1, hq] at ho2
  norm_cast at ho2
  rw [hlook] at ho2
  exact ho2

/-- C8: opcode-remap parsing of the decrypted pipe-separated decimal
list builds `{value_i ↦ i + 0xCC}` — the plaintext of `5|9|17|33`
(zero-padded to the 3DES block) yields exactly
`5 ↦ 0xCC, 9 ↦ 0xCD, 17 ↦ 0xCE, 33 ↦ 0xCF` — stopping at the first
empty token, at the first non-parseable token and at the first duplicate
key while keeping the entries parsed so far; and an outbound stream with
the map installed emits a packet whose raw opcode is 9 with the mapped
real opcode `0xCD`.  The oracle hypotheses fix the 3DES-ECB plaintext of
the ciphertext, so each statement holds for every library behaviour
consistent with it. -/
theorem opcode_remap_parse_and_apply :
    (∀ (crypto : CryptoOracle) (cipher : List Nat),
        crypto.des3Decrypt (cipher.take 16) = plain8 →
        MapleStream.parseOpcodeEncryption crypto cipher 16 16
          = [(5, 0xCC), (9, 0xCD), (17, 0xCE), (33, 0xCF)])
    ∧ (∀ (crypto : CryptoOracle) (cipher : List Nat),
        crypto.des3Decrypt (cipher.take 8) = [53, 124, 124, 57, 124, 56, 51, 51] →
        MapleStream.parseOpcodeEncryption crypto cipher 8 8 = [(5, 0xCC)])
    ∧ (∀ (crypto : CryptoOracle) (cipher : List Nat),
        crypto.des3Decrypt (cipher.take 8) = [53, 124, 120, 124, 57, 51, 51, 55] →
        MapleStream.parseOpcodeEncryption crypto cipher 8 8 = [(5, 0xCC)])
    ∧ (∀ (crypto : CryptoOracle) (cipher : List Nat),
        crypto.des3Decrypt (cipher.take 8) = [53, 124, 57, 124, 53, 124, 55, 55] →
        MapleStream.parseOpcodeEncryption crypto cipher 8 8
          = [(5, 0xCC), (9, 0xCD)])
    ∧ (∀ (crypto : CryptoOracle) (s : MapleStream) (p q : DecryptedPacket)
        (s1 s2 : MapleStream),
        s.outbound = true → s.opcodeEncrypted = true →
        s.encryptedOpcodes.lookup 9 = some 0xCD →
        MapleStream.tryRead crypto
            { s with opcodeEncrypted := false, encryptedOpcodes := [] }
          = (some q, s2) →
        q.opcode = 9 →
        MapleStream.tryRead crypto s = (some p, s1) →
        p.opcode = 0xCD) := by
  refine ⟨?_, ?_, ?_, ?_, outbound_opcode_remapped⟩
  all_goals intro crypto cipher h
  all_goals simp only [MapleStream.parseOpcodeEncryption]
  all_goals norm_num
  all_goals simp only [show Int.toNat 16 = 16 from rfl,
    show Int.toNat 8 = 8 from rfl, h]
  all_goals decide

/-- An oracle whose 3DES decryption yields the scenario-5 plaintext. -/
def crypto8 : CryptoOracle := ⟨fun _ _ => List.replicate 16 0, fun _ => plain8⟩

/-- An outbound stream (data-shift transform, so the keystream oracle is
unused) with the scenario-5 map installed and a complete packet of raw
opcode 9 buffered. -/
def s8 : MapleStream :=
  { outbound := true, version := 100, iv := ⟨1, 2, 3, 4⟩, aesKey := [],
    useNewDataShift := true,
    buffer := [0x67, 0x04, 0x63, 0x04, 0x0A, 0x01, 0xAB, 0xBC],
    expectedDataSize := 4, opcodeEncrypted := true,
    encryptedOpcodes := [(9, 0xCD)] }

/-- The packet `s8` emits (opcode remapped to `0xCD`). -/
def p8 : DecryptedPacket := ⟨true, 0xCD, [0xAA, 0xBB], 2, false, false, 0, [], 0⟩

/-- The packet `s8` would emit without the map (raw opcode 9). -/
def q8 : DecryptedPacket := ⟨true, 9, [0xAA, 0xBB], 2, false, false, 0, [], 0⟩

/-- Instantiation of `opcode_remap_parse_and_apply`: the concrete
parse of the scenario-5 plaintext, and the concrete stream `s8` emitting
`0xCD` for the packet whose raw opcode is 9. -/
theorem opcode_remap_parse_and_apply_witness :
    MapleStream.parseOpcodeEncryption crypto8 (List.replicate 16 0) 16 16
        = [(5, 0xCC), (9, 0xCD), (17, 0xCE), (33, 0xCF)]
    ∧ p8.opcode = 0xCD := by
  refine ⟨opcode_remap_parse_and_apply.1 crypto8 (List.replicate 16 0) rfl, ?_⟩
  exact opcode_remap_parse_and_apply.2.2.2.2 crypto0 s8 p8 q8
    (s8.tryRead crypto0).2
    (({ s8 with opcodeEncrypted := false, encryptedOpcodes := [] } :
        MapleStream).tryRead crypto0).2
    rfl rfl (by decide) (by decide) (by decide) (by decide)

/-! ## Claim C1 -/

theorem tryRead_not_notice (crypto : CryptoOracle) (s : MapleStream)
    (p : DecryptedPacket) (s1 : MapleStream)
    (h : MapleStream.tryRead crypto s = (some p, s1)) :
    p.isDeadNotification = false := by
  have e := tryRead_some_emit crypto s p s1 h
  have e2 := congrArg (fun r => r.1.map (fun x => x.isDeadNotification)) e
  have e3 : some false = some p.isDeadNotification := e2
  exact (Option.some_inj.mp e3).symm

theorem tryReadD_not_notice (crypto : CryptoOracle) (d : MapleStreamD)
    (p : DecryptedPacket) (d1 : MapleStreamD)
    (h : d.tryRead crypto = (some p, d1)) :
    p.isDeadNotification = false := by
  simp only [MapleStreamD.tryRead] at h
  split at h
  · exact absurd h (by simp)
  · split at h
    · exact absurd h (by simp)
    · have h1 := congrArg (fun r => r.1) h
      simp only at h1
      exact tryRead_not_notice crypto d.core p (d.core.tryRead crypto).2
        (by rw [← h1])

theorem drainPackets_no_notice (crypto : CryptoOracle) :
    ∀ (fuel : Nat) (d : MapleStreamD) (acc : List DecryptedPacket),
      (drainPackets crypto fuel d acc).1.filter (fun p => p.isDeadNotification)
        = acc.filter (fun p => p.isDeadNotification) := by
  intro fuel
  induction fuel with
  | zero => intro d acc; rfl
  | succ n ih =>
    intro d acc
    simp only [drainPackets]
    rcases htr : d.tryRead crypto with ⟨op, d1⟩
    cases op with
    | none => simp
    | some p =>
      rw [ih]
      simp [List.filter_append, tryReadD_not_notice crypto d p d1 htr]

theorem drainPackets_dead (crypto : CryptoOracle) (n : Nat) (d : MapleStreamD)
    (acc : List DecryptedPacket) (hd : d.dead = true) :
    drainPackets crypto (n + 1) d acc = (acc, d) := by
  simp [drainPackets, MapleStreamD.tryRead, hd]

theorem feedStream_dead (crypto : CryptoOracle) (sd : SessionDir)
    (hd : sd.stream.dead = true) (hn : sd.deadNotified = true)
    (more : List Nat) :
    Session.feedStream crypto sd more = ([], sd) := by
  have ha : sd.stream.append more = sd.stream := by
    simp [MapleStreamD.append, hd]
  simp only [Session.feedStream, ha]
  split
  · rfl
  · rw [drainPackets_dead crypto _ _ _ hd]
    simp [hd, hn]
    rw [← hn]

/-- C1: when a feed leaves the stream dead (the header check failed
during it — `MapleStreamD.tryRead` sets the flag exactly there), the
emitted packets of that feed contain exactly one desync notice (the
decoded packets that preceded it carry no notice flag), the session
latches `deadNotified`, and every further feed of that direction emits
nothing and leaves the state untouched, no matter how many more bytes
arrive. -/
theorem desync_emits_once_then_silent (crypto : CryptoOracle) (sd : SessionDir)
    (data : List Nat) (out : List DecryptedPacket) (sd2 : SessionDir)
    (hdead0 : sd.stream.dead = false) (hnot : sd.deadNotified = false)
    (hfeed : Session.feedStream crypto sd data = (out, sd2))
    (hdead : sd2.stream.dead = true) :
    out.filter (fun p => p.isDeadNotification)
        = [deadPacket sd2.stream.core.outbound]
    ∧ sd2.deadNotified = true
    ∧ ∀ more, Session.feedStream crypto sd2 more = ([], sd2) := by
  simp only [Session.feedStream] at hfeed
  split at hfeed
  · -- empty data: state unchanged, contradicting the transition to dead
    rw [Prod.mk.injEq] at hfeed
    rw [← hfeed.2] at hdead
    rw [hdead0] at hdead
    exact absurd hdead (by simp)
  · split at hfeed
    case isTrue hcond =>
      rw [Prod.mk.injEq] at hfeed
      obtain ⟨ho, hsd⟩ := hfeed
      subst hsd
      refine ⟨?_, rfl, ?_⟩
      · rw [← ho]
        simp [List.filter_append, drainPackets_no_notice, deadPacket]
      · intro more
        exact feedStream_dead crypto _ hdead rfl more
    case isFalse hcond =>
      rw [Prod.mk.injEq] at hfeed
      obtain ⟨ho, hsd⟩ := hfeed
      rw [← hsd] at hdead
      simp only at hdead
      rw [hdead, hnot] at hcond
      exact absurd rfl hcond

/-- A fresh inbound data-shift direction (dead flag clear, session not
yet notified). -/
def sd1 : SessionDir :=
  ⟨⟨mkMapleStream false 100 6 ⟨5, 6, 7, 8⟩ true, false⟩, false⟩

/-- One valid packet for the IV `5 6 7 8` followed by four bytes that
fail the header check against the morphed IV. -/
def c1data : List Nat :=
  [0x9C, 0xF7, 0x98, 0xF7, 0x07, 0x05, 0x15, 0x25, 0, 0, 0, 0]

/-- Instantiation of `desync_emits_once_then_silent`: the concrete feed
decodes one packet, then desyncs; exactly one notice is emitted and a
further feed of four bytes yields nothing and changes nothing. -/
theorem desync_emits_once_then_silent_witness :
    (Session.feedStream crypto0 sd1 c1data).1.filter
        (fun p => p.isDeadNotification) = [deadPacket false]
    ∧ (Session.feedStream crypto0 sd1 c1data).2.deadNotified = true
    ∧ Session.feedStream crypto0 (Session.feedStream crypto0 sd1 c1data).2
        [9, 9, 9, 9] = ([], (Session.feedStream crypto0 sd1 c1data).2) := by
  have h := desync_emits_once_then_silent crypto0 sd1 c1data
    (Session.feedStream crypto0 sd1 c1data).1
    (Session.feedStream crypto0 sd1 c1data).2
    rfl rfl rfl (by decide)
  have hob : (Session.feedStream crypto0 sd1 c1data).2.stream.core.outbound
      = false := by decide
  exact ⟨by rw [h.1, hob], h.2.1, h.2.2 [9, 9, 9, 9]⟩

end maple
